import Mathlib

/-!
Shallow embedding of `cc_textual/worktree.py` (git worktree management).

The Python module shells out to git; we model the external world as a
`GitEnv` record fixing, for one invocation, the stdout/stderr/exit status
of each git command the module can issue, the current working directory,
filesystem existence, and path normalisation (`Path.resolve`).  Each
embedded function returns its Python value together with the list of
external commands it issued, and fallible functions return `Except PyExn`
mirroring Python exception propagation (`subprocess.CalledProcessError`
raised by `check=True`).

Python strings are modelled as `List Char` (converted from Lean `String`
literals at the boundary) so that every definition reduces in the kernel.
-/

/-- Python `str.split(sep)` for a one-character separator: `pySplitOnChar c s`
splits `s` at every occurrence of `c`; `[] ↦ [[]]` as in Python. -/
def pySplitOnChar (c : Char) : List Char → List (List Char)
  | [] => [[]]
  | a :: rest =>
    let r := pySplitOnChar c rest
    if a == c then [] :: r
    else
      match r with
      | [] => [[a]]
      | s :: ss => (a :: s) :: ss

/-- ASCII whitespace test used by Python `str.strip()`. -/
def pyIsSpace (c : Char) : Bool :=
  c == ' ' || c == '\n' || c == '\t' || c == '\r' || c == '\x0b' || c == '\x0c'

/-- Python `str.strip()`: drop whitespace from both ends. -/
def pyStrip (l : List Char) : List Char :=
  ((l.dropWhile pyIsSpace).reverse.dropWhile pyIsSpace).reverse

/-- Python `str.startswith(pre)`: `pyStartsWith s pre`. -/
def pyStartsWith : List Char → List Char → Bool
  | _, [] => true
  | [], _ :: _ => false
  | a :: s, b :: p => a == b && pyStartsWith s p

/-- Model of Python `pathlib.Path` (POSIX): an absolute flag and the list of
non-empty components, as produced by `PurePosixPath`'s normalisation. -/
structure PyPath where
  absolute : Bool
  comps : List (List Char)
deriving DecidableEq, Repr

/-- Python `Path(s)`: parse a string into a path. -/
def PyPath.ofChars (s : List Char) : PyPath :=
  ⟨(match s with | c :: _ => c == '/' | [] => false),
   (pySplitOnChar '/' s).filter (· ≠ [])⟩

/-- Python `Path.name`: the final component, `""` if there is none. -/
def PyPath.name (p : PyPath) : List Char :=
  (p.comps.getLast?).getD []

/-- Python `Path.parent`: drop the final component (`Path("/").parent` is
`Path("/")`, `Path("a").parent` is `Path(".")`). -/
def PyPath.parent (p : PyPath) : PyPath :=
  ⟨p.absolute, p.comps.dropLast⟩

/-- Python `str(Path)`. -/
def PyPath.str (p : PyPath) : List Char :=
  match p.comps with
  | [] => if p.absolute then ['/'] else ['.']
  | c :: cs =>
    (if p.absolute then ['/'] else []) ++
      cs.foldl (fun acc d => acc ++ '/' :: d) c

/-- Python `path / s` for a string `s`: an absolute `s` replaces `path`,
otherwise the components of `s` are appended. -/
def PyPath.joinStr (p : PyPath) (s : List Char) : PyPath :=
  if (match s with | c :: _ => c == '/' | [] => false) then PyPath.ofChars s
  else ⟨p.absolute, p.comps ++ (pySplitOnChar '/' s).filter (· ≠ [])⟩

/-- One external effect: a git subprocess invocation with its full argument
vector, or the pre-flight filesystem existence check `Path.exists()`. -/
inductive Cmd where
  | git (argv : List String) : Cmd
  | fsCheck (path : PyPath) : Cmd
deriving DecidableEq, Repr

/-- Python exception values the module can raise or catch. -/
inductive PyExn where
  | calledProcessError (stderr : String) : PyExn
  | otherError (msg : String) : PyExn
deriving DecidableEq, Repr

def revParseArgv : List String := ["git", "rev-parse", "--show-toplevel"]

def branchArgv : List String := ["git", "branch", "--show-current"]

def listArgv : List String := ["git", "worktree", "list", "--porcelain"]

/-- Argument vector of `git worktree add -b <feature> <dir> HEAD`. -/
def addArgv (feature : String) (dir : String) : List String :=
  ["git", "worktree", "add", "-b", feature, dir, "HEAD"]

/-- The external world seen by one invocation of the module: outcome and
output of each git command, the working directory, filesystem existence,
and the `Path.resolve` normalisation. -/
structure GitEnv where
  revParseOk : Bool
  revParseStdout : String
  revParseStderr : String
  branchOk : Bool
  branchStdout : String
  branchStderr : String
  listOk : Bool
  listStdout : String
  listStderr : String
  addOk : Bool
  addStderr : String
  cwd : PyPath
  dirExists : PyPath → Bool
  resolve : PyPath → PyPath

/-- Embedding of `get_repo_name`: `Path(stdout.strip()).name` of
`git rev-parse --show-toplevel`, or `CalledProcessError` on nonzero exit. -/
def get_repo_name (env : GitEnv) : Except PyExn (List Char) × List Cmd :=
  (if env.revParseOk then
     .ok (PyPath.ofChars (pyStrip env.revParseStdout.data)).name
   else .error (.calledProcessError env.revParseStderr),
   [.git revParseArgv])

/-- Embedding of `get_current_branch`: `stdout.strip()` of
`git branch --show-current`. -/
def get_current_branch (env : GitEnv) : Except PyExn (List Char) × List Cmd :=
  (if env.branchOk then .ok (pyStrip env.branchStdout.data)
   else .error (.calledProcessError env.branchStderr),
   [.git branchArgv])

/-- Embedding of the `WorktreeInfo` dataclass. -/
structure WorktreeInfo where
  path : PyPath
  branch : List Char
  is_main : Bool
deriving DecidableEq, Repr

def wtLinePre : List Char := "worktree ".data

def brLinePre : List Char := "branch refs/heads/".data

/-- Final flush of the `list_worktrees` loop (`# Handle last entry if no
trailing newline`): emit a record when `current_path` is set and
`current_branch` is set and non-empty (Python truthiness), classifying with
a fresh `get_repo_name()` call. -/
def lwFinal (env : GitEnv) (p : Option PyPath) (b : Option (List Char)) :
    Except PyExn (List WorktreeInfo) × List Cmd :=
  match p, b with
  | some pp, some bb =>
    if bb ≠ [] then
      match get_repo_name env with
      | (.ok rn, t) => (.ok [⟨pp, bb, decide (pp.name = rn)⟩], t)
      | (.error e, t) => (.error e, t)
    else (.ok [], [])
  | _, _ => (.ok [], [])

/-- Line loop of `list_worktrees`: `worktree ` lines set `current_path`,
`branch refs/heads/` lines set `current_branch`, a blank line flushes a
record (when both are set, branch non-empty) and resets both; each flush
calls `get_repo_name()` to classify `is_main`. -/
def lwLoop (env : GitEnv) :
    List (List Char) → Option PyPath → Option (List Char) →
    Except PyExn (List WorktreeInfo) × List Cmd
  | [], p, b => lwFinal env p b
  | line :: rest, p, b =>
    if pyStartsWith line wtLinePre then
      lwLoop env rest (some (PyPath.ofChars (line.drop 9))) b
    else if pyStartsWith line brLinePre then
      lwLoop env rest p (some (line.drop 18))
    else if line = [] then
      match p, b with
      | some pp, some bb =>
        if bb ≠ [] then
          match get_repo_name env with
          | (.ok rn, t) =>
            let r := lwLoop env rest none none
            (r.1.map fun ws => ⟨pp, bb, decide (pp.name = rn)⟩ :: ws, t ++ r.2)
          | (.error e, t) => (.error e, t)
        else lwLoop env rest none none
      | _, _ => lwLoop env rest none none
    else lwLoop env rest p b

/-- Embedding of `list_worktrees`: run `git worktree list --porcelain`
(raising on nonzero exit), then parse `stdout.strip().split("\n")`. -/
def list_worktrees (env : GitEnv) : Except PyExn (List WorktreeInfo) × List Cmd :=
  if env.listOk then
    let r := lwLoop env (pySplitOnChar '\n' (pyStrip env.listStdout.data)) none none
    (r.1, .git listArgv :: r.2)
  else (.error (.calledProcessError env.listStderr), [.git listArgv])

/-- Embedding of `get_main_worktree`: first listed record with `is_main`. -/
def get_main_worktree (env : GitEnv) :
    Except PyExn (Option (PyPath × List Char)) × List Cmd :=
  match list_worktrees env with
  | (.ok wts, t) => (.ok ((wts.find? (·.is_main)).map fun w => (w.path, w.branch)), t)
  | (.error e, t) => (.error e, t)

/-- The `info_dict` assembled by `get_finish_worktree_info` (all four values
are Python strings). -/
structure FinishInfo where
  branch_name : List Char
  base_branch : List Char
  worktree_dir : List Char
  main_dir : List Char
deriving DecidableEq, Repr

def notFeatureMsg : String := "Not in a feature worktree. Switch to a worktree first."

def noMainMsg : String := "Cannot find main worktree."

def readyMsg : String := "Ready to finish worktree"

/-- Embedding of `get_finish_worktree_info`: resolve the invocation
directory, list worktrees, find the record whose resolved path equals it,
reject `None` and main with one shared message, then look up the main
worktree (a second listing) and assemble the info dict.  There is no
`try/except` in the Python function, so listing failures propagate as
exceptions (the `.error` case). -/
def get_finish_worktree_info (env : GitEnv) (cwd : Option PyPath) :
    Except PyExn (Bool × String × Option FinishInfo) × List Cmd :=
  let c := env.resolve (cwd.getD env.cwd)
  match list_worktrees env with
  | (.error e, t) => (.error e, t)
  | (.ok wts, t) =>
    match wts.find? (fun wt => decide (env.resolve wt.path = c)) with
    | none => (.ok (false, notFeatureMsg, none), t)
    | some cw =>
      if cw.is_main then (.ok (false, notFeatureMsg, none), t)
      else
        match get_main_worktree env with
        | (.error e, t') => (.error e, t ++ t')
        | (.ok none, t') => (.ok (false, noMainMsg, none), t ++ t')
        | (.ok (some (odir, bb)), t') =>
          (.ok (true, readyMsg,
                some ⟨cw.branch, bb, cw.path.str, odir.str⟩), t ++ t')

/-- Message produced by the two `except` clauses of `start_worktree`. -/
def pyExnMsg : PyExn → String
  | .calledProcessError st => "Git error: " ++ st
  | .otherError m => "Error: " ++ m

/-- Embedding of `start_worktree`: the whole body sits in a
`try/except`, so every exception is converted into a
`(False, message, None)` triple; on success it returns
`(True, "Created worktree at ...", worktree_dir)`. -/
def start_worktree (env : GitEnv) (feature_name : String) :
    (Bool × String × Option PyPath) × List Cmd :=
  match get_repo_name env with
  | (.error e, t) => ((false, pyExnMsg e, none), t)
  | (.ok repo_name, t1) =>
    match get_current_branch env with
    | (.error e, t2) => ((false, pyExnMsg e, none), t1 ++ t2)
    | (.ok _base_branch, t2) =>
      match get_main_worktree env with
      | (.error e, t3) => ((false, pyExnMsg e, none), t1 ++ t2 ++ t3)
      | (.ok mw, t3) =>
        let parent_dir :=
          match mw with
          | some pb => pb.1.parent
          | none => env.cwd.parent
        let worktree_dir := parent_dir.joinStr (repo_name ++ '-' :: feature_name.data)
        let t4 := t1 ++ t2 ++ t3 ++ [Cmd.fsCheck worktree_dir]
        if env.dirExists worktree_dir then
          ((false, "Directory " ++ String.mk worktree_dir.str ++ " already exists",
            none), t4)
        else
          let t5 := t4 ++ [Cmd.git (addArgv feature_name (String.mk worktree_dir.str))]
          if env.addOk then
            ((true, "Created worktree at " ++ String.mk worktree_dir.str,
              some worktree_dir), t5)
          else
            ((false, pyExnMsg (.calledProcessError env.addStderr), none), t5)

/-! ## Specification-side definitions

These re-express, in closed form, what the embedded functions compute, so
that the claims can be stated against them.  `splitStanzas`/`stanzaRecord`
follow the spec's description of the porcelain format (blank-line-delimited
stanzas); the rest are direct formulas for the values the code derives. -/

/-- Repository name the module derives: `Path(rev-parse stdout.strip()).name`. -/
def repoName (env : GitEnv) : List Char :=
  (PyPath.ofChars (pyStrip env.revParseStdout.data)).name

/-- Classification of a parsed `(path, branch)` record: `is_main` iff the
final path component equals the repository name. -/
def toInfo (env : GitEnv) (r : PyPath × List Char) : WorktreeInfo :=
  ⟨r.1, r.2, decide (r.1.name = repoName env)⟩

/-- Blank-line-delimited stanzas of a porcelain listing (the final stanza
needs no trailing blank line). -/
def splitStanzas : List (List Char) → List (List (List Char))
  | [] => [[]]
  | l :: ls =>
    if l = [] then [] :: splitStanzas ls
    else
      match splitStanzas ls with
      | [] => [[l]]
      | s :: ss => (l :: s) :: ss

/-- Fields of one stanza: the last `worktree ` line and the last
`branch refs/heads/` line, starting from given initial values. -/
def stanzaFields : List (List Char) → Option PyPath → Option (List Char) →
    Option PyPath × Option (List Char)
  | [], p, b => (p, b)
  | l :: ls, p, b =>
    if pyStartsWith l wtLinePre then stanzaFields ls (some (PyPath.ofChars (l.drop 9))) b
    else if pyStartsWith l brLinePre then stanzaFields ls p (some (l.drop 18))
    else stanzaFields ls p b

/-- Record produced from stanza fields: both must be present and the branch
name non-empty, otherwise the stanza is dropped. -/
def recOf : Option PyPath → Option (List Char) → Option (PyPath × List Char)
  | some pp, some bb => if bb ≠ [] then some (pp, bb) else none
  | _, _ => none

/-- Record of a stanza given initial field values. -/
def stanzaRecordFrom (p : Option PyPath) (b : Option (List Char))
    (st : List (List Char)) : Option (PyPath × List Char) :=
  recOf (stanzaFields st p b).1 (stanzaFields st p b).2

/-- Record of a stanza: its last `worktree`/`branch` lines, if both present
with a non-empty branch name. -/
def stanzaRecord (st : List (List Char)) : Option (PyPath × List Char) :=
  stanzaRecordFrom none none st

/-- Records the loop still produces from `ls` when the current stanza was
entered with fields `p`, `b`. -/
def recsFrom (p : Option PyPath) (b : Option (List Char))
    (ls : List (List Char)) : List (PyPath × List Char) :=
  match splitStanzas ls with
  | [] => []
  | s :: ss => (stanzaRecordFrom p b s).toList ++ ss.filterMap stanzaRecord

/-- Stanza-level reading of a porcelain listing: one `(path, branch)`
record per blank-line-delimited stanza that has both a `worktree <path>`
line and a `branch refs/heads/<name>` line, in input order. -/
def specRecords (text : String) : List (PyPath × List Char) :=
  (splitStanzas (pySplitOnChar '\n' (pyStrip text.data))).filterMap stanzaRecord

/-- Closed form of the records `list_worktrees` returns. -/
def worktreeInfos (env : GitEnv) : List WorktreeInfo :=
  (specRecords env.listStdout).map (toInfo env)

/-- Closed form of the main worktree `get_main_worktree` returns: the first
record classified main. -/
def specMainWt (env : GitEnv) : Option (PyPath × List Char) :=
  ((worktreeInfos env).find? (·.is_main)).map fun w => (w.path, w.branch)

/-- Closed form of the target directory `start_worktree` computes:
`parent / "{repo_name}-{feature_name}"`, with `parent` the main worktree's
parent directory, or the current directory's parent when no record is
classified main. -/
def swTarget (env : GitEnv) (feature_name : String) : PyPath :=
  (match specMainWt env with
   | some pb => pb.1.parent
   | none => env.cwd.parent).joinStr (repoName env ++ '-' :: feature_name.data)

/-- Normalised invocation directory used by `get_finish_worktree_info`. -/
def finishCwd (env : GitEnv) (cwd : Option PyPath) : PyPath :=
  env.resolve (cwd.getD env.cwd)

/-- Record whose resolved path equals the resolved invocation directory. -/
def finishMatch (env : GitEnv) (cwd : Option PyPath) : Option WorktreeInfo :=
  (worktreeInfos env).find? (fun wt => decide (env.resolve wt.path = finishCwd env cwd))

/-- Shape test for the one mutating command, `git worktree add ...`. -/
def isAddCmd : Cmd → Bool
  | .git ("git" :: "worktree" :: "add" :: _) => true
  | _ => false

/-! ## Concrete environments used by witnesses and counterexamples -/

/-- Healthy repository `myapp` at `/r/myapp` on branch `main`, with one
feature worktree `/r/myapp-login-fix` on branch `login-fix` (the spec's own
scenario).  Normalisation is the identity and no target directory exists. -/
def envGood : GitEnv :=
  { revParseOk := true, revParseStdout := "/r/myapp\n", revParseStderr := "",
    branchOk := true, branchStdout := "main\n", branchStderr := "",
    listOk := true,
    listStdout := "worktree /r/myapp\nHEAD 1111111\nbranch refs/heads/main\n\nworktree /r/myapp-login-fix\nHEAD 2222222\nbranch refs/heads/login-fix\n",
    listStderr := "",
    addOk := true, addStderr := "",
    cwd := PyPath.ofChars "/r/myapp-login-fix".data,
    dirExists := fun _ => false,
    resolve := fun p => p }

/-- Same repository but every directory already exists on disk. -/
def envBusy : GitEnv :=
  { envGood with dirExists := fun _ => true }

/-- Registry in which no record is classified main: the repository is
`myapp` but the only listed worktree is `/r/other-x`. -/
def envNoMain : GitEnv :=
  { envGood with
    listStdout := "worktree /r/other-x\nHEAD 3333333\nbranch refs/heads/x\n",
    cwd := PyPath.ofChars "/r/other-x".data }

/-- Environment in which `git worktree list` exits nonzero. -/
def envListFail : GitEnv :=
  { envGood with listOk := false, listStderr := "fatal: not a git repository" }

/-- Environment in which `git rev-parse` exits nonzero. -/
def envRevFail : GitEnv :=
  { envGood with revParseOk := false, revParseStderr := "rev-parse failed" }

/-- Environment in which `git worktree add` exits nonzero. -/
def envAddFail : GitEnv :=
  { envGood with addOk := false, addStderr := "add failed" }

/-! ## Helper lemmas -/

theorem splitStanzas_ne_nil : ∀ ls : List (List Char), splitStanzas ls ≠ []
  | [] => by simp [splitStanzas]
  | l :: ls => by
    simp only [splitStanzas]
    split
    · simp
    · split <;> simp

theorem filterMap_stanzas (ls : List (List Char)) :
    (splitStanzas ls).filterMap stanzaRecord = recsFrom none none ls := by
  unfold recsFrom
  cases h : splitStanzas ls with
  | nil => exact absurd h (splitStanzas_ne_nil ls)
  | cons s ss =>
    cases hr : stanzaRecordFrom none none s <;>
      simp [List.filterMap_cons, stanzaRecord, hr]

theorem recsFrom_nil (p : Option PyPath) (b : Option (List Char)) :
    recsFrom p b [] = (recOf p b).toList := by
  simp [recsFrom, splitStanzas, stanzaRecordFrom, stanzaFields]

theorem recsFrom_blank (p : Option PyPath) (b : Option (List Char))
    (ls : List (List Char)) :
    recsFrom p b ([] :: ls) = (recOf p b).toList ++ recsFrom none none ls := by
  have h2 : splitStanzas ([] :: ls) = [] :: splitStanzas ls := by
    simp [splitStanzas]
  rw [recsFrom, h2, ← filterMap_stanzas]
  simp [stanzaRecordFrom, stanzaFields]

theorem recsFrom_cons (l : List Char) (ls : List (List Char))
    (p : Option PyPath) (b : Option (List Char)) (hne : l ≠ []) :
    recsFrom p b (l :: ls) =
      if pyStartsWith l wtLinePre then
        recsFrom (some (PyPath.ofChars (l.drop 9))) b ls
      else if pyStartsWith l brLinePre then
        recsFrom p (some (l.drop 18)) ls
      else recsFrom p b ls := by
  cases h : splitStanzas ls with
  | nil => exact absurd h (splitStanzas_ne_nil ls)
  | cons s ss =>
    have h2 : splitStanzas (l :: ls) = (l :: s) :: ss := by
      simp [splitStanzas, hne, h]
    have h3 : stanzaRecordFrom p b (l :: s) =
        if pyStartsWith l wtLinePre then
          stanzaRecordFrom (some (PyPath.ofChars (l.drop 9))) b s
        else if pyStartsWith l brLinePre then
          stanzaRecordFrom p (some (l.drop 18)) s
        else stanzaRecordFrom p b s := by
      simp only [stanzaRecordFrom, stanzaFields]
      split_ifs <;> rfl
    simp only [recsFrom, h, h2, h3]
    split_ifs <;> rfl

theorem get_repo_name_ok (env : GitEnv) (h : env.revParseOk = true) :
    get_repo_name env = (.ok (repoName env), [.git revParseArgv]) := by
  simp [get_repo_name, h, repoName]

theorem lwLoop_eq (env : GitEnv) (h : env.revParseOk = true)
    (ls : List (List Char)) : ∀ (p : Option PyPath) (b : Option (List Char)),
    lwLoop env ls p b =
      (.ok ((recsFrom p b ls).map (toInfo env)),
       (recsFrom p b ls).map fun _ => Cmd.git revParseArgv) := by
  induction ls with
  | nil =>
    intro p b
    cases p with
    | none => simp [lwLoop, lwFinal, recsFrom_nil, recOf]
    | some pp =>
      cases b with
      | none => simp [lwLoop, lwFinal, recsFrom_nil, recOf]
      | some bb =>
        by_cases hbb : bb = [] <;>
          simp [lwLoop, lwFinal, recsFrom_nil, recOf, hbb,
                get_repo_name_ok env h, toInfo]
  | cons l ls ih =>
    intro p b
    by_cases h1 : pyStartsWith l wtLinePre = true
    · have hl : l ≠ [] := by
        intro heq; rw [heq] at h1
        exact absurd h1 (by decide)
      rw [show lwLoop env (l :: ls) p b
            = lwLoop env ls (some (PyPath.ofChars (l.drop 9))) b from by
          simp [lwLoop, h1]]
      rw [ih, recsFrom_cons l ls p b hl]
      simp [h1]
    · by_cases h2 : pyStartsWith l brLinePre = true
      · have hl : l ≠ [] := by
          intro heq; rw [heq] at h2
          exact absurd h2 (by decide)
        rw [show lwLoop env (l :: ls) p b
              = lwLoop env ls p (some (l.drop 18)) from by
            simp [lwLoop, h1, h2]]
        rw [ih, recsFrom_cons l ls p b hl]
        simp [h1, h2]
      · by_cases h3 : l = []
        · subst h3
          rw [recsFrom_blank]
          cases p with
          | none => simp [lwLoop, recOf, ih, h1, h2]
          | some pp =>
            cases b with
            | none => simp [lwLoop, recOf, ih, h1, h2]
            | some bb =>
              by_cases hbb : bb = []
              · simp [lwLoop, recOf, hbb, ih, h1, h2]
              · simp [lwLoop, recOf, hbb, get_repo_name_ok env h, ih, toInfo, h1, h2,
                      Except.map]
        · rw [show lwLoop env (l :: ls) p b = lwLoop env ls p b from by
            simp [lwLoop, h1, h2, h3]]
          rw [ih, recsFrom_cons l ls p b h3]
          simp [h1, h2]

theorem list_map_const_eq {α β γ : Type _} (g : α → β) (c : γ) (l : List α) :
    l.map (fun _ => c) = (l.map g).map (fun _ => c) := by
  induction l with
  | nil => rfl
  | cons a l ih => simpa using ih

theorem list_worktrees_eq (env : GitEnv) (hl : env.listOk = true)
    (hr : env.revParseOk = true) :
    list_worktrees env =
      (.ok (worktreeInfos env),
       .git listArgv :: (worktreeInfos env).map fun _ => Cmd.git revParseArgv) := by
  have hlines := lwLoop_eq env hr (pySplitOnChar '\n' (pyStrip env.listStdout.data)) none none
  have hw : worktreeInfos env
      = (recsFrom none none (pySplitOnChar '\n' (pyStrip env.listStdout.data))).map
          (toInfo env) := by
    rw [worktreeInfos, specRecords, filterMap_stanzas]
  simp only [list_worktrees, hl, if_true, hlines]
  rw [hw, ← list_map_const_eq (toInfo env) (Cmd.git revParseArgv)]

theorem get_main_worktree_eq (env : GitEnv) (hl : env.listOk = true)
    (hr : env.revParseOk = true) :
    get_main_worktree env =
      (.ok (specMainWt env),
       .git listArgv :: (worktreeInfos env).map fun _ => Cmd.git revParseArgv) := by
  simp [get_main_worktree, list_worktrees_eq env hl hr, specMainWt]

theorem find_main_of_unique (wts : List WorktreeInfo) (m : WorktreeInfo)
    (hm : m ∈ wts) (hmain : m.is_main = true)
    (huniq : ∀ w ∈ wts, w.is_main = true → w = m) :
    wts.find? (·.is_main) = some m := by
  induction wts with
  | nil => exact absurd hm (List.not_mem_nil m)
  | cons w ws ih =>
    by_cases hw : w.is_main = true
    · rw [List.find?_cons_of_pos _ hw]
      exact congrArg some (huniq w (List.mem_cons_self w ws) hw)
    · rw [List.find?_cons_of_neg _ (by simpa using hw)]
      rcases List.mem_cons.mp hm with rfl | hm'
      · exact absurd hmain hw
      · exact ih hm' fun x hx hx2 => huniq x (List.mem_cons_of_mem w hx) hx2

theorem lwLoop_is_main (env : GitEnv) (ls : List (List Char)) :
    ∀ (p : Option PyPath) (b : Option (List Char)) (wts : List WorktreeInfo)
      (t : List Cmd), lwLoop env ls p b = (.ok wts, t) →
      ∀ w ∈ wts, w.is_main = decide (w.path.name = repoName env) := by
  by_cases hr : env.revParseOk = true
  · intro p b wts t h w hw
    rw [lwLoop_eq env hr] at h
    have hwts : wts = (recsFrom p b ls).map (toInfo env) :=
      (Except.ok.inj (congrArg Prod.fst h)).symm
    subst hwts
    rcases List.mem_map.mp hw with ⟨r, _, rfl⟩
    rfl
  · replace hr : env.revParseOk = false := by
      cases henv : env.revParseOk
      · rfl
      · exact absurd henv hr
    induction ls with
    | nil =>
      intro p b wts t h w hw
      cases p with
      | none =>
        simp [lwLoop, lwFinal] at h
        rw [h.1] at hw; exact absurd hw (List.not_mem_nil w)
      | some pp =>
        cases b with
        | none =>
          simp [lwLoop, lwFinal] at h
          rw [h.1] at hw; exact absurd hw (List.not_mem_nil w)
        | some bb =>
          by_cases hbb : bb = []
          · simp [lwLoop, lwFinal, hbb] at h
            rw [h.1] at hw; exact absurd hw (List.not_mem_nil w)
          · simp [lwLoop, lwFinal, hbb, get_repo_name, hr] at h
    | cons l rest ih =>
      intro p b wts t h w hw
      by_cases h1 : pyStartsWith l wtLinePre = true
      · rw [show lwLoop env (l :: rest) p b
              = lwLoop env rest (some (PyPath.ofChars (l.drop 9))) b from by
            simp [lwLoop, h1]] at h
        exact ih _ _ _ _ h w hw
      · by_cases h2 : pyStartsWith l brLinePre = true
        · rw [show lwLoop env (l :: rest) p b
                = lwLoop env rest p (some (l.drop 18)) from by
              simp [lwLoop, h1, h2]] at h
          exact ih _ _ _ _ h w hw
        · by_cases h3 : l = []
          · subst h3
            cases p with
            | none =>
              rw [show lwLoop env (([] : List Char) :: rest) none b
                    = lwLoop env rest none none from by
                  simp [lwLoop, h1, h2]] at h
              exact ih _ _ _ _ h w hw
            | some pp =>
              cases b with
              | none =>
                rw [show lwLoop env (([] : List Char) :: rest) (some pp) none
                      = lwLoop env rest none none from by
                    simp [lwLoop, h1, h2]] at h
                exact ih _ _ _ _ h w hw
              | some bb =>
                by_cases hbb : bb = []
                · rw [show lwLoop env (([] : List Char) :: rest) (some pp) (some bb)
                        = lwLoop env rest none none from by
                      simp [lwLoop, h1, h2, hbb]] at h
                  exact ih _ _ _ _ h w hw
                · simp [lwLoop, h1, h2, hbb, get_repo_name, hr] at h
          · rw [show lwLoop env (l :: rest) p b = lwLoop env rest p b from by
              simp [lwLoop, h1, h2, h3]] at h
            exact ih _ _ _ _ h w hw

theorem get_current_branch_ok (env : GitEnv) (h : env.branchOk = true) :
    get_current_branch env = (.ok (pyStrip env.branchStdout.data), [.git branchArgv]) := by
  simp [get_current_branch, h]

theorem start_worktree_run (env : GitEnv) (f : String)
    (hr : env.revParseOk = true) (hb : env.branchOk = true) (hl : env.listOk = true) :
    start_worktree env f =
      ((if env.dirExists (swTarget env f) then
          (false, "Directory " ++ String.mk (swTarget env f).str ++ " already exists",
           none)
        else if env.addOk then
          (true, "Created worktree at " ++ String.mk (swTarget env f).str,
           some (swTarget env f))
        else (false, "Git error: " ++ env.addStderr, none)),
       [.git revParseArgv, .git branchArgv, .git listArgv] ++
         (worktreeInfos env).map (fun _ => Cmd.git revParseArgv) ++
         (if env.dirExists (swTarget env f) then [Cmd.fsCheck (swTarget env f)]
          else [Cmd.fsCheck (swTarget env f),
                .git (addArgv f (String.mk (swTarget env f).str))])) := by
  have htarget :
      (match specMainWt env with
       | some pb => pb.1.parent
       | none => env.cwd.parent).joinStr (repoName env ++ '-' :: f.data)
        = swTarget env f := rfl
  simp only [start_worktree, get_repo_name_ok env hr, get_current_branch_ok env hb,
             get_main_worktree_eq env hl hr, htarget]
  cases hex : env.dirExists (swTarget env f) with
  | true => simp [pyExnMsg]
  | false =>
    cases ha : env.addOk with
    | true => simp [pyExnMsg]
    | false => simp [pyExnMsg]

theorem lwLoop_trace_mem (env : GitEnv) (ls : List (List Char)) :
    ∀ (p : Option PyPath) (b : Option (List Char)) (c : Cmd),
      c ∈ (lwLoop env ls p b).2 → c = Cmd.git revParseArgv := by
  induction ls with
  | nil =>
    intro p b c hc
    cases p with
    | none => simp [lwLoop, lwFinal] at hc
    | some pp =>
      cases b with
      | none => simp [lwLoop, lwFinal] at hc
      | some bb =>
        by_cases hbb : bb = []
        · simp [lwLoop, lwFinal, hbb] at hc
        · cases hr : env.revParseOk <;>
            simp [lwLoop, lwFinal, hbb, get_repo_name, hr] at hc <;> exact hc
  | cons l rest ih =>
    intro p b c hc
    by_cases h1 : pyStartsWith l wtLinePre = true
    · rw [show lwLoop env (l :: rest) p b
            = lwLoop env rest (some (PyPath.ofChars (l.drop 9))) b from by
          simp [lwLoop, h1]] at hc
      exact ih _ _ _ hc
    · by_cases h2 : pyStartsWith l brLinePre = true
      · rw [show lwLoop env (l :: rest) p b
              = lwLoop env rest p (some (l.drop 18)) from by
            simp [lwLoop, h1, h2]] at hc
        exact ih _ _ _ hc
      · by_cases h3 : l = []
        · subst h3
          cases p with
          | none =>
            rw [show lwLoop env (([] : List Char) :: rest) none b
                  = lwLoop env rest none none from by
                simp [lwLoop, h1, h2]] at hc
            exact ih _ _ _ hc
          | some pp =>
            cases b with
            | none =>
              rw [show lwLoop env (([] : List Char) :: rest) (some pp) none
                    = lwLoop env rest none none from by
                  simp [lwLoop, h1, h2]] at hc
              exact ih _ _ _ hc
            | some bb =>
              by_cases hbb : bb = []
              · rw [show lwLoop env (([] : List Char) :: rest) (some pp) (some bb)
                      = lwLoop env rest none none from by
                    simp [lwLoop, h1, h2, hbb]] at hc
                exact ih _ _ _ hc
              · cases hr : env.revParseOk with
                | false =>
                  simp [lwLoop, h1, h2, hbb, get_repo_name, hr] at hc
                  exact hc
                | true =>
                  simp [lwLoop, h1, h2, hbb, get_repo_name, hr] at hc
                  rcases hc with hc | hc
                  · exact hc
                  · exact ih _ _ _ hc
        · rw [show lwLoop env (l :: rest) p b = lwLoop env rest p b from by
            simp [lwLoop, h1, h2, h3]] at hc
          exact ih _ _ _ hc

theorem list_worktrees_trace_mem (env : GitEnv) (c : Cmd)
    (h : c ∈ (list_worktrees env).2) :
    c = Cmd.git revParseArgv ∨ c = Cmd.git listArgv := by
  by_cases hl : env.listOk = true
  · simp only [list_worktrees, hl, if_true] at h
    rcases List.mem_cons.mp h with rfl | h'
    · exact Or.inr rfl
    · exact Or.inl (lwLoop_trace_mem env _ none none c h')
  · replace hl : env.listOk = false := by
      cases hx : env.listOk
      · rfl
      · exact absurd hx hl
    simp [list_worktrees, hl] at h
    exact Or.inr h

theorem get_main_worktree_trace_mem (env : GitEnv) (c : Cmd)
    (h : c ∈ (get_main_worktree env).2) :
    c = Cmd.git revParseArgv ∨ c = Cmd.git listArgv := by
  rcases hlw : list_worktrees env with ⟨r, t⟩
  apply list_worktrees_trace_mem env c
  rw [hlw]
  cases r <;> simp [get_main_worktree, hlw] at h <;> simpa using h

theorem countP_map_not_add {α : Type _} (l : List α) :
    ((l.map fun _ => Cmd.git revParseArgv).countP isAddCmd) = 0 := by
  induction l with
  | nil => rfl
  | cons a l ih => simp [List.countP_cons, isAddCmd, ih, revParseArgv]

/-! ## Claims -/

/-- C3: for every environment, every record returned by `list_worktrees` is
marked `is_main` exactly when the final path component of its path equals
the repository name (case-sensitive equality of character lists), whatever
its position in the listing order. -/
theorem c3_classifier_name_rule (env : GitEnv) (wts : List WorktreeInfo)
    (t : List Cmd) (h : list_worktrees env = (.ok wts, t)) :
    ∀ w ∈ wts, w.is_main = decide (w.path.name = repoName env) := by
  by_cases hl : env.listOk = true
  · simp only [list_worktrees, hl, if_true] at h
    have h1 : (lwLoop env (pySplitOnChar '\n' (pyStrip env.listStdout.data))
        none none).1 = .ok wts := (Prod.ext_iff.mp h).1
    exact lwLoop_is_main env _ none none wts
      (lwLoop env (pySplitOnChar '\n' (pyStrip env.listStdout.data)) none none).2
      (by rw [← h1])
  · replace hl : env.listOk = false := by
      cases hx : env.listOk
      · rfl
      · exact absurd hx hl
    simp [list_worktrees, hl] at h

/-- C3 witness: on the concrete environment `envGood` the classifier marks
exactly the record whose directory name is the repository name. -/
theorem c3_classifier_name_rule_witness :
    list_worktrees envGood =
      (.ok [⟨PyPath.ofChars "/r/myapp".data, "main".data, true⟩,
            ⟨PyPath.ofChars "/r/myapp-login-fix".data, "login-fix".data, false⟩],
       [.git listArgv, .git revParseArgv, .git revParseArgv]) ∧
    (∀ w ∈ [⟨PyPath.ofChars "/r/myapp".data, "main".data, true⟩,
            ⟨PyPath.ofChars "/r/myapp-login-fix".data, "login-fix".data, false⟩],
       WorktreeInfo.is_main w = decide (w.path.name = repoName envGood)) :=
  ⟨rfl,
   c3_classifier_name_rule envGood
     [⟨PyPath.ofChars "/r/myapp".data, "main".data, true⟩,
      ⟨PyPath.ofChars "/r/myapp-login-fix".data, "login-fix".data, false⟩]
     [.git listArgv, .git revParseArgv, .git revParseArgv] rfl⟩

/-- C4: for every environment in which the listing and rev-parse commands
succeed, the parser returns without raising, and its records are exactly
one `(path, branch)` pair per blank-line-delimited stanza containing both a
`worktree <path>` line and a `branch refs/heads/<name>` line, in input
order (`specRecords`); stanzas lacking one of the two lines are dropped,
and the final stanza needs no trailing blank line. -/
theorem c4_parser_stanza_refinement (env : GitEnv)
    (hl : env.listOk = true) (hr : env.revParseOk = true) :
    ∃ wts t, list_worktrees env = (.ok wts, t) ∧
      wts.map (fun w => (w.path, w.branch)) = specRecords env.listStdout := by
  refine ⟨worktreeInfos env, _, list_worktrees_eq env hl hr, ?_⟩
  rw [worktreeInfos, List.map_map]
  have hcomp : ((fun w : WorktreeInfo => (w.path, w.branch)) ∘ toInfo env) = id := by
    funext r
    cases r
    rfl
  rw [hcomp, List.map_id]

/-- C4 witness: the concrete listing of `envGood` (two stanzas, the final
one without a trailing blank line) parses to its two stanza records. -/
theorem c4_parser_stanza_refinement_witness :
    envGood.listOk = true ∧ envGood.revParseOk = true ∧
    (∃ wts t, list_worktrees envGood = (.ok wts, t) ∧
      wts.map (fun w => (w.path, w.branch)) = specRecords envGood.listStdout) :=
  ⟨rfl, rfl, c4_parser_stanza_refinement envGood rfl rfl⟩

/-- C10: `start_worktree` is total at its interface: for every environment
and feature name it returns a `(success, message, path)` triple (never an
exception — its result type is exception-free because the Python body is
wrapped in a catch-all `try/except`), and the returned path is present
exactly when `success` is `true`. -/
theorem c10_start_worktree_total (env : GitEnv) (f : String) :
    ((start_worktree env f).1.2.2).isSome = (start_worktree env f).1.1 := by
  rcases hg : get_repo_name env with ⟨rg, tg⟩
  cases rg with
  | error e => simp [start_worktree, hg]
  | ok repo =>
    rcases hb : get_current_branch env with ⟨rb, tb⟩
    cases rb with
    | error e => simp [start_worktree, hg, hb]
    | ok br =>
      rcases hm : get_main_worktree env with ⟨rm, tm⟩
      cases rm with
      | error e => simp [start_worktree, hg, hb, hm]
      | ok mw =>
        simp only [start_worktree, hg, hb, hm]
        cases mw <;> split_ifs <;> simp

/-- C1 counterexample: on the concrete repository `envGood`,
finish-resolution invoked on the main worktree's own path `/r/myapp` and
invoked on the unknown path `/q/elsewhere` return the *identical* value
`(False, "Not in a feature worktree. Switch to a worktree first.", None)`:
the `AlreadyInMainWorktree` and `NotInWorktree` cases are not
distinguishable by the caller, refuting the three-distinct-outcomes claim. -/
theorem c1_main_and_outside_indistinguishable :
    (get_finish_worktree_info envGood (some (PyPath.ofChars "/r/myapp".data))).1
        = .ok (false, notFeatureMsg, none) ∧
    (get_finish_worktree_info envGood (some (PyPath.ofChars "/q/elsewhere".data))).1
        = .ok (false, notFeatureMsg, none) :=
  ⟨rfl, rfl⟩

/-- C1 (amended): finish-resolution fails with exactly *two*
caller-distinguishable outcomes, not three: when no record's normalized
path equals the normalized invocation directory, or when the matching
record is classified main, it returns the one shared not-in-feature-worktree
failure (so resolving on the main worktree's own path is *not*
distinguishable from resolving outside every worktree); when a non-main
match exists but no record is classified main, it returns the distinct
main-worktree-not-found failure. -/
theorem c1_finish_failure_dichotomy (env : GitEnv) (cwd : Option PyPath)
    (hl : env.listOk = true) (hr : env.revParseOk = true) :
    ((finishMatch env cwd = none ∨
        (∃ cw, finishMatch env cwd = some cw ∧ cw.is_main = true)) →
      (get_finish_worktree_info env cwd).1 = .ok (false, notFeatureMsg, none)) ∧
    (∀ cw, finishMatch env cwd = some cw → cw.is_main = false →
      (worktreeInfos env).find? (·.is_main) = none →
      (get_finish_worktree_info env cwd).1 = .ok (false, noMainMsg, none)) := by
  constructor
  · rintro (hn | ⟨cw, hcw, hmain⟩)
    · rw [finishMatch, finishCwd] at hn
      simp [get_finish_worktree_info, list_worktrees_eq env hl hr, hn]
    · rw [finishMatch, finishCwd] at hcw
      simp [get_finish_worktree_info, list_worktrees_eq env hl hr, hcw, hmain]
  · intro cw hcw hnm hnomain
    rw [finishMatch, finishCwd] at hcw
    have hmw : specMainWt env = none := by
      rw [specMainWt, hnomain]
      rfl
    simp [get_finish_worktree_info, list_worktrees_eq env hl hr, hcw, hnm,
          get_main_worktree_eq env hl hr, hmw]

/-- C1 witness: both branches of the dichotomy applied at concrete inputs:
the unmatched path `/q/elsewhere` on `envGood`, and the non-main worktree
`/r/other-x` on the registry `envNoMain` that has no main record. -/
theorem c1_finish_failure_dichotomy_witness :
    envGood.listOk = true ∧ envGood.revParseOk = true ∧
    finishMatch envGood (some (PyPath.ofChars "/q/elsewhere".data)) = none ∧
    (get_finish_worktree_info envGood
        (some (PyPath.ofChars "/q/elsewhere".data))).1
      = .ok (false, notFeatureMsg, none) ∧
    finishMatch envNoMain (some (PyPath.ofChars "/r/other-x".data))
      = some ⟨PyPath.ofChars "/r/other-x".data, "x".data, false⟩ ∧
    (worktreeInfos envNoMain).find? (·.is_main) = none ∧
    (get_finish_worktree_info envNoMain
        (some (PyPath.ofChars "/r/other-x".data))).1
      = .ok (false, noMainMsg, none) :=
  ⟨rfl, rfl, rfl,
   (c1_finish_failure_dichotomy envGood
     (some (PyPath.ofChars "/q/elsewhere".data)) rfl rfl).1 (Or.inl rfl),
   rfl, rfl,
   (c1_finish_failure_dichotomy envNoMain
     (some (PyPath.ofChars "/r/other-x".data)) rfl rfl).2
     ⟨PyPath.ofChars "/r/other-x".data, "x".data, false⟩ rfl rfl rfl⟩

/-- C2: whenever finish-resolution succeeds — there is a record whose
normalized path equals the normalized invocation directory, it is not
classified main, and a unique record is classified main — the returned
info has `branch_name` and `worktree_dir` taken from the matching record's
branch and path, and `base_branch` and `main_dir` taken from the main
record's branch and path. -/
theorem c2_finish_success_fields (env : GitEnv) (cwd : Option PyPath)
    (hl : env.listOk = true) (hr : env.revParseOk = true)
    (cw m : WorktreeInfo)
    (hcw : finishMatch env cwd = some cw) (hnm : cw.is_main = false)
    (hm : m ∈ worktreeInfos env) (hmain : m.is_main = true)
    (huniq : ∀ w ∈ worktreeInfos env, w.is_main = true → w = m) :
    (get_finish_worktree_info env cwd).1 =
      .ok (true, readyMsg, some ⟨cw.branch, m.branch, cw.path.str, m.path.str⟩) := by
  have hmw : specMainWt env = some (m.path, m.branch) := by
    rw [specMainWt, find_main_of_unique (worktreeInfos env) m hm hmain huniq]
    rfl
  rw [finishMatch, finishCwd] at hcw
  simp [get_finish_worktree_info, list_worktrees_eq env hl hr, hcw, hnm,
        get_main_worktree_eq env hl hr, hmw]

/-- C2 witness: the spec's own scenario on `envGood`: resolving
`/r/myapp-login-fix` yields branch `login-fix`, base branch `main`,
worktree dir `/r/myapp-login-fix` and main dir `/r/myapp`. -/
theorem c2_finish_success_fields_witness :
    envGood.listOk = true ∧
    finishMatch envGood (some (PyPath.ofChars "/r/myapp-login-fix".data))
      = some ⟨PyPath.ofChars "/r/myapp-login-fix".data, "login-fix".data, false⟩ ∧
    (∀ w ∈ worktreeInfos envGood, w.is_main = true →
      w = ⟨PyPath.ofChars "/r/myapp".data, "main".data, true⟩) ∧
    (get_finish_worktree_info envGood
        (some (PyPath.ofChars "/r/myapp-login-fix".data))).1 =
      .ok (true, readyMsg,
           some ⟨"login-fix".data, "main".data,
                 "/r/myapp-login-fix".data, "/r/myapp".data⟩) :=
  ⟨rfl, rfl, by decide,
   c2_finish_success_fields envGood
     (some (PyPath.ofChars "/r/myapp-login-fix".data)) rfl rfl
     ⟨PyPath.ofChars "/r/myapp-login-fix".data, "login-fix".data, false⟩
     ⟨PyPath.ofChars "/r/myapp".data, "main".data, true⟩
     rfl rfl (by decide) rfl (by decide)⟩

/-- C5: creation never silently overwrites: (1) when the computed target
directory exists at call time and the preliminary queries succeed, creation
fails with the `Directory ... already exists` message and never issues the
`worktree add` command; (2) whenever the target exists or the VCS refuses
the add (the race safety net), the call fails, with either the
directory-exists message or a VCS `Git error:` message; (3) success implies
the add command was accepted and the target did not exist. -/
theorem c5_no_silent_overwrite (env : GitEnv) (f : String) :
    (env.revParseOk = true → env.branchOk = true → env.listOk = true →
      env.dirExists (swTarget env f) = true →
      (start_worktree env f).1
          = (false,
             "Directory " ++ String.mk (swTarget env f).str ++ " already exists",
             none) ∧
      ∀ c ∈ (start_worktree env f).2, isAddCmd c = false) ∧
    ((env.dirExists (swTarget env f) = true ∨ env.addOk = false) →
      (start_worktree env f).1.1 = false ∧
      ((∃ d, (start_worktree env f).1.2.1 = "Directory " ++ d ++ " already exists") ∨
       (∃ s, (start_worktree env f).1.2.1 = "Git error: " ++ s))) ∧
    ((start_worktree env f).1.1 = true →
      env.addOk = true ∧ env.dirExists (swTarget env f) = false) := by
  refine ⟨?_, ?_, ?_⟩
  · intro hr hb hl hex
    rw [start_worktree_run env f hr hb hl]
    refine ⟨by simp [hex], ?_⟩
    intro c hc
    simp only [hex, if_true, List.mem_append, List.mem_cons, List.mem_map,
               List.not_mem_nil, or_false] at hc
    rcases hc with ((rfl | rfl | rfl) | ⟨_, _, rfl⟩) | rfl <;> rfl
  · intro h
    cases hr : env.revParseOk with
    | false =>
      refine ⟨?_, Or.inr ⟨env.revParseStderr, ?_⟩⟩ <;>
        simp [start_worktree, get_repo_name, hr, pyExnMsg]
    | true =>
      cases hb : env.branchOk with
      | false =>
        refine ⟨?_, Or.inr ⟨env.branchStderr, ?_⟩⟩ <;>
          simp [start_worktree, get_repo_name_ok env hr, get_current_branch, hb,
                pyExnMsg]
      | true =>
        cases hl : env.listOk with
        | false =>
          refine ⟨?_, Or.inr ⟨env.listStderr, ?_⟩⟩ <;>
            simp [start_worktree, get_repo_name_ok env hr,
                  get_current_branch_ok env hb, get_main_worktree, list_worktrees,
                  hl, pyExnMsg]
        | true =>
          rw [start_worktree_run env f hr hb hl]
          cases hex : env.dirExists (swTarget env f) with
          | true =>
            exact ⟨by simp, Or.inl ⟨String.mk (swTarget env f).str, by simp⟩⟩
          | false =>
            have ha : env.addOk = false := by
              rcases h with h | h
              · rw [hex] at h; cases h
              · exact h
            exact ⟨by simp [ha], Or.inr ⟨env.addStderr, by simp [ha]⟩⟩
  · intro hs
    cases hr : env.revParseOk with
    | false => simp [start_worktree, get_repo_name, hr] at hs
    | true =>
      cases hb : env.branchOk with
      | false =>
        simp [start_worktree, get_repo_name_ok env hr, get_current_branch, hb] at hs
      | true =>
        cases hl : env.listOk with
        | false =>
          simp [start_worktree, get_repo_name_ok env hr,
                get_current_branch_ok env hb, get_main_worktree, list_worktrees,
                hl] at hs
        | true =>
          rw [start_worktree_run env f hr hb hl] at hs
          cases hex : env.dirExists (swTarget env f) with
          | true => rw [hex] at hs; simp at hs
          | false =>
            cases ha : env.addOk with
            | false => rw [hex, ha] at hs; simp at hs
            | true => exact ⟨rfl, rfl⟩

/-- C5 witness: on `envBusy`, where the target directory for `login-fix2`
already exists, creation fails with the directory-exists message, issues no
add command, and reports failure. -/
theorem c5_no_silent_overwrite_witness :
    (envBusy.revParseOk = true ∧ envBusy.branchOk = true ∧
     envBusy.listOk = true ∧ envBusy.dirExists (swTarget envBusy "login-fix2") = true) ∧
    ((start_worktree envBusy "login-fix2").1
        = (false,
           "Directory " ++ String.mk (swTarget envBusy "login-fix2").str ++
             " already exists",
           none) ∧
     ∀ c ∈ (start_worktree envBusy "login-fix2").2, isAddCmd c = false) ∧
    ((start_worktree envBusy "login-fix2").1.1 = false ∧
     ((∃ d, (start_worktree envBusy "login-fix2").1.2.1
          = "Directory " ++ d ++ " already exists") ∨
      (∃ s, (start_worktree envBusy "login-fix2").1.2.1 = "Git error: " ++ s))) :=
  ⟨⟨rfl, rfl, rfl, rfl⟩,
   (c5_no_silent_overwrite envBusy "login-fix2").1 rfl rfl rfl rfl,
   (c5_no_silent_overwrite envBusy "login-fix2").2.1 (Or.inl rfl)⟩

/-- C6: for every non-empty feature name, when the preliminary queries
succeed, the target is free and the VCS accepts, creation returns success
with the target path `parent / "{repo_name}-{feature_name}"` (`parent`
being the main worktree's parent directory, or the current directory's
parent when no main worktree is found — both encoded in `swTarget`), and
its one mutating command is exactly
`git worktree add -b <feature_name> <target_path> HEAD`. -/
theorem c6_create_target_and_command (env : GitEnv) (f : String) (hf : f ≠ "")
    (hr : env.revParseOk = true) (hb : env.branchOk = true) (hl : env.listOk = true)
    (hnd : env.dirExists (swTarget env f) = false) (ha : env.addOk = true) :
    start_worktree env f =
      ((true, "Created worktree at " ++ String.mk (swTarget env f).str,
        some (swTarget env f)),
       [.git revParseArgv, .git branchArgv, .git listArgv] ++
         (worktreeInfos env).map (fun _ => Cmd.git revParseArgv) ++
         [Cmd.fsCheck (swTarget env f),
          .git (addArgv f (String.mk (swTarget env f).str))]) := by
  rw [start_worktree_run env f hr hb hl]
  simp [hnd, ha]

/-- C6 witness: creating `login-fix2` on `envGood` succeeds at
`/r/myapp-login-fix2` and ends with the exact
`git worktree add -b login-fix2 /r/myapp-login-fix2 HEAD` command. -/
theorem c6_create_target_and_command_witness :
    ("login-fix2" ≠ "" ∧ envGood.revParseOk = true ∧ envGood.branchOk = true ∧
     envGood.listOk = true ∧ envGood.dirExists (swTarget envGood "login-fix2") = false ∧
     envGood.addOk = true) ∧
    start_worktree envGood "login-fix2" =
      ((true, "Created worktree at " ++ String.mk (swTarget envGood "login-fix2").str,
        some (swTarget envGood "login-fix2")),
       [.git revParseArgv, .git branchArgv, .git listArgv] ++
         (worktreeInfos envGood).map (fun _ => Cmd.git revParseArgv) ++
         [Cmd.fsCheck (swTarget envGood "login-fix2"),
          .git (addArgv "login-fix2" (String.mk (swTarget envGood "login-fix2").str))]) :=
  ⟨⟨by decide, rfl, rfl, rfl, rfl, rfl⟩,
   c6_create_target_and_command envGood "login-fix2" (by decide) rfl rfl rfl rfl rfl⟩

/-- C7 counterexample: on `envNoMain` zero records satisfy the classifier's
name test, yet creation succeeds (falling back to the current directory's
parent) instead of failing closed. -/
theorem c7_create_succeeds_without_main :
    (worktreeInfos envNoMain).find? (·.is_main) = none ∧
    (start_worktree envNoMain "feat").1.1 = true :=
  ⟨rfl, rfl⟩

/-- C7 (amended): when zero records satisfy the classifier's name test,
finish-resolution fails closed, but creation does *not*: it proceeds using
the current directory's parent as fallback; and when more than one record
satisfies the test, main-worktree lookup returns the first in registry
order rather than failing. -/
theorem c7_main_selection_behavior (env : GitEnv) :
    (∀ cwd cw, env.listOk = true → env.revParseOk = true →
      finishMatch env cwd = some cw → cw.is_main = false →
      (worktreeInfos env).find? (·.is_main) = none →
      (get_finish_worktree_info env cwd).1 = .ok (false, noMainMsg, none)) ∧
    (∀ f, env.revParseOk = true → env.branchOk = true → env.listOk = true →
      (worktreeInfos env).find? (·.is_main) = none →
      env.dirExists (swTarget env f) = false → env.addOk = true →
      (start_worktree env f).1 =
        (true, "Created worktree at " ++ String.mk (swTarget env f).str,
         some (env.cwd.parent.joinStr (repoName env ++ '-' :: f.data)))) ∧
    (∀ wts t, list_worktrees env = (.ok wts, t) →
      get_main_worktree env =
        (.ok ((wts.find? (·.is_main)).map fun w => (w.path, w.branch)), t)) := by
  refine ⟨?_, ?_, ?_⟩
  · intro cwd cw hl hr hcw hnm hnomain
    rw [finishMatch, finishCwd] at hcw
    have hmw : specMainWt env = none := by
      rw [specMainWt, hnomain]
      rfl
    simp [get_finish_worktree_info, list_worktrees_eq env hl hr, hcw, hnm,
          get_main_worktree_eq env hl hr, hmw]
  · intro f hr hb hl hnomain hnd ha
    have hmw : specMainWt env = none := by
      rw [specMainWt, hnomain]
      rfl
    have htgt : swTarget env f = env.cwd.parent.joinStr (repoName env ++ '-' :: f.data) := by
      rw [swTarget, hmw]
    rw [start_worktree_run env f hr hb hl]
    rw [htgt] at hnd ⊢
    simp [hnd, ha]
  · intro wts t h
    simp [get_main_worktree, h]

/-- C7 witness: both creation-fallback and first-match selection at
concrete inputs: creation on `envNoMain` (zero main records) succeeds with
the fallback target `/r/myapp-feat`, and main lookup on `envGood` returns
the first classified record. -/
theorem c7_main_selection_behavior_witness :
    ((worktreeInfos envNoMain).find? (·.is_main) = none ∧
     envNoMain.dirExists (swTarget envNoMain "feat") = false ∧
     (start_worktree envNoMain "feat").1 =
       (true, "Created worktree at " ++ String.mk (swTarget envNoMain "feat").str,
        some (envNoMain.cwd.parent.joinStr (repoName envNoMain ++ '-' :: "feat".data)))) ∧
    get_main_worktree envGood =
      (.ok ((([⟨PyPath.ofChars "/r/myapp".data, "main".data, true⟩,
               ⟨PyPath.ofChars "/r/myapp-login-fix".data, "login-fix".data,
                false⟩] : List WorktreeInfo).find?
          (·.is_main)).map fun w => (w.path, w.branch)),
       [.git listArgv, .git revParseArgv, .git revParseArgv]) :=
  ⟨⟨rfl, rfl,
    (c7_main_selection_behavior envNoMain).2.1 "feat" rfl rfl rfl rfl rfl rfl⟩,
   (c7_main_selection_behavior envGood).2.2
     [⟨PyPath.ofChars "/r/myapp".data, "main".data, true⟩,
      ⟨PyPath.ofChars "/r/myapp-login-fix".data, "login-fix".data, false⟩]
     [.git listArgv, .git revParseArgv, .git revParseArgv] rfl⟩

/-- C8 counterexample: on `envListFail` the failing `git worktree list`
subprocess escapes `get_finish_worktree_info` as a `CalledProcessError`
exception (the `.error` case) rather than being returned as the function's
typed `(success, message, info)` result. -/
theorem c8_list_failure_escapes_as_exception :
    get_finish_worktree_info envListFail none
      = (.error (.calledProcessError "fatal: not a git repository"),
         [.git listArgv]) :=
  rfl

/-- C8 (amended): `start_worktree` converts every failure into a typed
`(False, message, None)` result, but `get_finish_worktree_info` propagates
a VCS listing failure to its caller as an exception; no failed command is
reissued: after a listing failure exactly one command was run, after a
rev-parse failure exactly one, and a refused `worktree add` is issued
exactly once. -/
theorem c8_failure_propagation (env : GitEnv) :
    (∀ cwd, env.listOk = false →
      get_finish_worktree_info env cwd
        = (.error (.calledProcessError env.listStderr), [.git listArgv])) ∧
    (∀ f, env.revParseOk = false →
      start_worktree env f
        = ((false, "Git error: " ++ env.revParseStderr, none), [.git revParseArgv])) ∧
    (∀ f, env.revParseOk = true → env.branchOk = true → env.listOk = true →
      env.dirExists (swTarget env f) = false → env.addOk = false →
      (start_worktree env f).1 = (false, "Git error: " ++ env.addStderr, none) ∧
      (start_worktree env f).2.countP isAddCmd = 1) := by
  refine ⟨?_, ?_, ?_⟩
  · intro cwd h
    simp [get_finish_worktree_info, list_worktrees, h]
  · intro f h
    simp [start_worktree, get_repo_name, h, pyExnMsg]
  · intro f hr hb hl hnd ha
    rw [start_worktree_run env f hr hb hl]
    refine ⟨by simp [hnd, ha], ?_⟩
    simp [hnd, List.countP_append, List.countP_cons, countP_map_not_add,
          isAddCmd, addArgv, revParseArgv, branchArgv, listArgv]

/-- C8 witness: the three propagation modes at concrete inputs: listing
failure escaping `get_finish_worktree_info` as an exception, rev-parse
failure converted by `start_worktree` into a typed result, and a refused
add converted into a typed result with the add issued exactly once. -/
theorem c8_failure_propagation_witness :
    (envListFail.listOk = false ∧
     get_finish_worktree_info envListFail none
       = (.error (.calledProcessError envListFail.listStderr), [.git listArgv])) ∧
    (envRevFail.revParseOk = false ∧
     start_worktree envRevFail "feat"
       = ((false, "Git error: " ++ envRevFail.revParseStderr, none),
          [.git revParseArgv])) ∧
    (envAddFail.addOk = false ∧
     (start_worktree envAddFail "feat").1
       = (false, "Git error: " ++ envAddFail.addStderr, none) ∧
     (start_worktree envAddFail "feat").2.countP isAddCmd = 1) :=
  ⟨⟨rfl, (c8_failure_propagation envListFail).1 none rfl⟩,
   ⟨rfl, (c8_failure_propagation envRevFail).2.1 "feat" rfl⟩,
   ⟨rfl, (c8_failure_propagation envAddFail).2.2 "feat" rfl rfl rfl rfl rfl⟩⟩

/-- C9 counterexample: on `envGood`, resolving the feature worktree
`/r/myapp-login-fix` issues the VCS listing command *twice* (once directly
and once inside the main-worktree lookup), not exactly once. -/
theorem c9_finish_issues_two_list_calls :
    ((get_finish_worktree_info envGood
        (some (PyPath.ofChars "/r/myapp-login-fix".data))).2.countP
      (fun c => decide (c = Cmd.git listArgv))) = 2 :=
  rfl

/-- C9 (amended): `get_finish_worktree_info` is read-only — every command
it issues is one of the two read-only queries (`rev-parse` or the listing),
never a mutation — but it may issue the listing more than once; and
`start_worktree` issues its read-only queries first, then the pre-flight
filesystem check, then exactly one mutating `worktree add` command, at the
very end of its command sequence. -/
theorem c9_command_profile (env : GitEnv) :
    (∀ cwd c, c ∈ (get_finish_worktree_info env cwd).2 →
      c = Cmd.git revParseArgv ∨ c = Cmd.git listArgv) ∧
    (∀ f, env.revParseOk = true → env.branchOk = true → env.listOk = true →
      env.dirExists (swTarget env f) = false →
      (start_worktree env f).2 =
        [.git revParseArgv, .git branchArgv, .git listArgv] ++
          (worktreeInfos env).map (fun _ => Cmd.git revParseArgv) ++
          [Cmd.fsCheck (swTarget env f),
           .git (addArgv f (String.mk (swTarget env f).str))]) := by
  constructor
  · intro cwd c hc
    rcases hlw : list_worktrees env with ⟨r, t⟩
    have hlt : ∀ x ∈ t, x = Cmd.git revParseArgv ∨ x = Cmd.git listArgv := by
      intro x hx
      exact list_worktrees_trace_mem env x (by rw [hlw]; exact hx)
    cases r with
    | error e =>
      simp only [get_finish_worktree_info, hlw] at hc
      exact hlt c hc
    | ok wts =>
      simp only [get_finish_worktree_info, hlw] at hc
      have hgt : ∀ x ∈ (get_main_worktree env).2,
          x = Cmd.git revParseArgv ∨ x = Cmd.git listArgv :=
        fun x hx => get_main_worktree_trace_mem env x hx
      cases hf : wts.find?
          (fun wt => decide (env.resolve wt.path
            = env.resolve (cwd.getD env.cwd))) with
      | none =>
        rw [hf] at hc
        exact hlt c hc
      | some cw =>
        rw [hf] at hc
        by_cases hcm : cw.is_main = true
        · simp only [hcm, if_true] at hc
          exact hlt c hc
        · replace hcm : cw.is_main = false := by
            cases hx : cw.is_main
            · rfl
            · exact absurd hx hcm
          simp only [hcm, Bool.false_eq_true, if_false] at hc
          rcases hgm : get_main_worktree env with ⟨r2, t2⟩
          rw [hgm] at hc
          have hgt2 : ∀ x ∈ t2, x = Cmd.git revParseArgv ∨ x = Cmd.git listArgv := by
            intro x hx
            exact hgt x (by rw [hgm]; exact hx)
          cases r2 with
          | error e2 =>
            rcases List.mem_append.mp hc with h | h
            · exact hlt c h
            · exact hgt2 c h
          | ok mwo =>
            cases mwo with
            | none =>
              rcases List.mem_append.mp hc with h | h
              · exact hlt c h
              · exact hgt2 c h
            | some pb =>
              rcases pb with ⟨odir, bb⟩
              rcases List.mem_append.mp hc with h | h
              · exact hlt c h
              · exact hgt2 c h
  · intro f hr hb hl hnd
    rw [start_worktree_run env f hr hb hl]
    simp [hnd]

/-- C9 witness: on `envGood`, the first listing command is among the
(read-only) commands of a finish-resolution, and the full command sequence
of a successful creation is the concrete read-only prefix, filesystem
check, and final add command. -/
theorem c9_command_profile_witness :
    (Cmd.git listArgv ∈ (get_finish_worktree_info envGood
        (some (PyPath.ofChars "/r/myapp-login-fix".data))).2 ∧
     (Cmd.git listArgv = Cmd.git revParseArgv ∨
      Cmd.git listArgv = Cmd.git listArgv)) ∧
    (envGood.dirExists (swTarget envGood "feat") = false ∧
     (start_worktree envGood "feat").2 =
       [.git revParseArgv, .git branchArgv, .git listArgv] ++
         (worktreeInfos envGood).map (fun _ => Cmd.git revParseArgv) ++
         [Cmd.fsCheck (swTarget envGood "feat"),
          .git (addArgv "feat" (String.mk (swTarget envGood "feat").str))]) :=
  ⟨⟨by decide,
    (c9_command_profile envGood).1
      (some (PyPath.ofChars "/r/myapp-login-fix".data)) (Cmd.git listArgv)
      (by decide)⟩,
   ⟨rfl, (c9_command_profile envGood).2 "feat" rfl rfl rfl rfl⟩⟩
